import Mathlib

/-!
Verification of the raven health-check monitor against its specification.
Each Go component relevant to the claims is shallowly embedded as an
executable Lean definition; machine integers are modelled as Int or Nat,
Go float64 arithmetic on the retry parameters as exact rationals (the
default parameters stay integral far below any float rounding), wall-clock
instants as natural numbers, and external library calls (JSON decoding,
JSONPath lookup, regexp compilation, float parsing and formatting) as
oracle parameters quantified in the theorems.
-/

namespace Raven

/-! ## Retry strategy (internal/webhook/retry.go, internal/model/common.go) -/

/-- Mirrors model.RetryConfig. MaxAttempts, InitialDelayMs, MaxDelayMs are
Go ints; Multiplier is a Go float64, modelled as an exact rational. -/
structure RetryConfig where
  maxAttempts : Int
  initialDelayMs : Int
  maxDelayMs : Int
  multiplier : ℚ
deriving Repr, DecidableEq

/-- Mirrors RetryConfig.SetDefaults: each field that is zero is replaced by
its default (3 attempts, 1000 ms initial, 30000 ms cap, multiplier 2.0). -/
def RetryConfig.SetDefaults (rc : RetryConfig) : RetryConfig :=
  { maxAttempts := if rc.maxAttempts = 0 then 3 else rc.maxAttempts
    initialDelayMs := if rc.initialDelayMs = 0 then 1000 else rc.initialDelayMs
    maxDelayMs := if rc.maxDelayMs = 0 then 30000 else rc.maxDelayMs
    multiplier := if rc.multiplier = 0 then 2 else rc.multiplier }

/-- The configuration NewRetryStrategy builds from a zero RetryConfig. -/
def defaultRetryConfig : RetryConfig :=
  RetryConfig.SetDefaults ⟨0, 0, 0, 0⟩

/-- Mirrors RetryStrategy.CalculateDelay. Returns the delay in milliseconds
as a rational: zero for attempt at most 0, otherwise
initialDelayMs * multiplier ^ (attempt - 1) capped at maxDelayMs. The Go
code computes this in float64 and converts to a Duration; with the default
parameters every value reached before the cap is an exact small integer, so
rational arithmetic coincides with the float computation. -/
def CalculateDelay (rc : RetryConfig) (attempt : Int) : ℚ :=
  if attempt ≤ 0 then 0
  else
    let delayMs : ℚ := (rc.initialDelayMs : ℚ) * rc.multiplier ^ (attempt - 1).toNat
    if delayMs > (rc.maxDelayMs : ℚ) then (rc.maxDelayMs : ℚ) else delayMs

/-- Mirrors RetryStrategy.ShouldRetry: att is the attempt number, status the
HTTP status code of the attempt, errNonNil whether the Go error argument was
non-nil. -/
def ShouldRetry (rc : RetryConfig) (att : Int) (status : Int) (errNonNil : Bool) : Bool :=
  if att ≥ rc.maxAttempts then false
  else if errNonNil then true
  else if 500 ≤ status ∧ status < 600 then true
  else if status = 429 then true
  else if 400 ≤ status ∧ status < 500 then false
  else if status ≥ 300 then true
  else false

/-! ## Circuit breaker (internal/webhook/circuit_breaker.go) -/

inductive CircuitState where
  | closed
  | opened
  | halfOpen
deriving Repr, DecidableEq

/-- Mirrors webhook.CircuitBreaker. Timestamps are abstract instants (Nat);
lastFailureTime zero plays the role of the Go zero time. -/
structure CircuitBreaker where
  state : CircuitState
  failureCount : Nat
  successCount : Nat
  lastFailureTime : Nat
  lastStateChange : Nat
  failureThreshold : Nat
  successThreshold : Nat
  timeout : Nat
deriving Repr, DecidableEq

/-- Mirrors NewCircuitBreaker: closed, thresholds 5 and 2, timeout 60 s,
lastStateChange stamped with the current instant. -/
def NewCircuitBreaker (now : Nat) : CircuitBreaker :=
  { state := .closed
    failureCount := 0
    successCount := 0
    lastFailureTime := 0
    lastStateChange := now
    failureThreshold := 5
    successThreshold := 2
    timeout := 60 }

/-- Mirrors CircuitBreaker.CanAttempt: returns the boolean answer and the
possibly updated breaker (Open moves to HalfOpen once the timeout elapsed). -/
def CircuitBreaker.CanAttempt (cb : CircuitBreaker) (now : Nat) : Bool × CircuitBreaker :=
  match cb.state with
  | .closed => (true, cb)
  | .opened =>
      if now - cb.lastStateChange ≥ cb.timeout then
        (true, { cb with state := .halfOpen, successCount := 0, failureCount := 0 })
      else (false, cb)
  | .halfOpen => (true, cb)

/-- Mirrors CircuitBreaker.RecordSuccess. -/
def CircuitBreaker.RecordSuccess (cb : CircuitBreaker) (now : Nat) : CircuitBreaker :=
  let cb := { cb with lastFailureTime := 0 }
  match cb.state with
  | .closed => { cb with failureCount := 0 }
  | .halfOpen =>
      let cb := { cb with successCount := cb.successCount + 1 }
      if cb.successCount ≥ cb.successThreshold then
        { cb with state := .closed, failureCount := 0, successCount := 0,
                  lastStateChange := now }
      else cb
  | .opened => cb

/-- Mirrors CircuitBreaker.RecordFailure. -/
def CircuitBreaker.RecordFailure (cb : CircuitBreaker) (now : Nat) : CircuitBreaker :=
  let cb := { cb with lastFailureTime := now, failureCount := cb.failureCount + 1 }
  match cb.state with
  | .closed =>
      if cb.failureCount ≥ cb.failureThreshold then
        { cb with state := .opened, lastStateChange := now }
      else cb
  | .halfOpen => { cb with state := .opened, lastStateChange := now, successCount := 0 }
  | .opened => cb

/-- A record-success or record-failure call together with the instant at
which it happens. -/
inductive CBEvent where
  | success (now : Nat)
  | failure (now : Nat)
deriving Repr, DecidableEq

def CBEvent.isFailure : CBEvent → Bool
  | .success _ => false
  | .failure _ => true

def CircuitBreaker.applyEvent (cb : CircuitBreaker) : CBEvent → CircuitBreaker
  | .success t => cb.RecordSuccess t
  | .failure t => cb.RecordFailure t

def CircuitBreaker.applyEvents (cb : CircuitBreaker) (es : List CBEvent) : CircuitBreaker :=
  es.foldl CircuitBreaker.applyEvent cb

/-- Longest run of consecutive failure events, counting an initial trailing
run of length c inherited from earlier events. -/
def maxFailStreakFrom (c : Nat) : List CBEvent → Nat
  | [] => 0
  | e :: rest =>
      if e.isFailure then max (c + 1) (maxFailStreakFrom (c + 1) rest)
      else maxFailStreakFrom 0 rest

/-- Longest run of consecutive failure events in the list. -/
def maxFailStreak (es : List CBEvent) : Nat :=
  maxFailStreakFrom 0 es

/-! ## Webhook dispatcher (internal/webhook/dispatcher.go) -/

/-- Mirrors model.Webhook restricted to the fields the dispatcher logic
reads: the sink URL and the retry configuration. Method and headers only
shape the HTTP request itself, which is behind the delivery oracle. -/
structure Webhook where
  url : String
  retryConfig : RetryConfig
deriving Repr, DecidableEq

/-- Mirrors model.AlertAttempt restricted to the delivery-relevant fields;
the timestamp, duration and response-body excerpt are transport artefacts
outside the model. -/
structure AlertAttempt where
  statusCode : Int
  error : Option String
deriving Repr, DecidableEq

/-- Mirrors model.AlertLog as built by SendAlert (ids model ObjectIDs;
wall-clock creation and completion stamps are omitted). -/
structure AlertLog where
  id : Nat
  configId : Nat
  correlationId : String
  webhookUrl : String
  attempts : List AlertAttempt
  finalStatus : String
deriving Repr, DecidableEq

/-- Outcome of one HTTP transaction with the webhook sink: a transport
error before any response, or a response with a status code. -/
inductive DeliveryOutcome where
  | transportError (msg : String)
  | status (code : Int)
deriving Repr, DecidableEq

/-- Mirrors Dispatcher.deliverWebhook: the AlertAttempt record and the
returned Go error for a single delivery attempt. A transport failure and
also any non-2xx status produce a non-nil returned error. -/
def deliverWebhook : DeliveryOutcome → AlertAttempt × Option String
  | .transportError msg =>
      ({ statusCode := 0, error := some ("Request failed: " ++ msg) },
        some ("Request failed: " ++ msg))
  | .status code =>
      if code < 200 ∨ code ≥ 300 then
        ({ statusCode := code, error := some "webhook returned status" },
          some "webhook returned status")
      else ({ statusCode := code, error := none }, none)

/-- The retry loop of Dispatcher.SendAlert (the for-loop over attempts plus
the exhausted-retries epilogue). deliver gives the sink outcome of each
attempt number, cancelled whether the caller context is done during the
backoff sleep following that attempt, and fuel counts the remaining loop
iterations, maxAttempts - att + 1. -/
def sendAlertLoop (rc : RetryConfig) (deliver : Nat → DeliveryOutcome)
    (cancelled : Nat → Bool) (now : Nat) :
    Nat → Nat → AlertLog → CircuitBreaker → AlertLog × Option String × CircuitBreaker
  | 0, _, log, cb =>
      ({ log with finalStatus := "failed" },
        some "webhook delivery failed after all attempts", cb.RecordFailure now)
  | fuel + 1, att, log, cb =>
      let res := deliverWebhook (deliver att)
      let log := { log with attempts := log.attempts ++ [res.1] }
      if res.2 = none ∧ 200 ≤ res.1.statusCode ∧ res.1.statusCode < 300 then
        ({ log with finalStatus := "delivered" }, none, cb.RecordSuccess now)
      else if ShouldRetry rc (att : Int) res.1.statusCode res.2.isSome = false then
        ({ log with finalStatus := "failed" },
          some "webhook delivery failed", cb.RecordFailure now)
      else if (att : Int) < rc.maxAttempts ∧ cancelled att then
        ({ log with finalStatus := "failed" }, some "context cancelled", cb)
      else sendAlertLoop rc deliver cancelled now fuel (att + 1) log cb

/-- Mirrors Dispatcher.SendAlert: create the AlertLog, consult the circuit
breaker, and run the retry loop with the defaults-completed retry
configuration. newId models primitive.NewObjectID; SendAlert leaves the
configId zero (the executor stamps it afterwards). -/
def SendAlert (w : Webhook) (correlationId : String) (newId : Nat)
    (deliver : Nat → DeliveryOutcome) (cancelled : Nat → Bool)
    (cb : CircuitBreaker) (now : Nat) : AlertLog × Option String × CircuitBreaker :=
  let log : AlertLog :=
    { id := newId, configId := 0, correlationId := correlationId,
      webhookUrl := w.url, attempts := [], finalStatus := "retrying" }
  let can := cb.CanAttempt now
  if can.1 = false then
    ({ log with finalStatus := "failed" }, some "circuit breaker is open", can.2)
  else
    let rc := w.retryConfig.SetDefaults
    sendAlertLoop rc deliver cancelled now rc.maxAttempts.toNat 1 log can.2

/-! ## Lease repository (schedule-lock database layer) -/

/-- Mirrors model.ScheduleLock; config ids are abstracted to Nat and
instants to Nat. -/
structure ScheduleLock where
  configId : Nat
  lockedBy : String
  lockedAt : Nat
  expiresAt : Nat
deriving Repr, DecidableEq

/-- The schedule_locks collection. The unique index idx_config_id_unique on
config_id means the collection holds at most one record per configId, so
the store is a map from configId to an optional record. -/
abbrev LockStore : Type := Nat → Option ScheduleLock

def emptyLockStore : LockStore := fun _ => none

/-- Mirrors LockRepository.AcquireLock: an atomic upsert whose filter
accepts an absent record or one whose expiresAt has passed (strictly before
now); on a hit the record is overwritten with this pod as owner and
expiresAt = now + ttl and the call returns true, otherwise the store is
unchanged and the call returns false (in Go, the upsert then fails on the
unique index and the returned document does not carry this pod). -/
def AcquireLock (s : LockStore) (configId : Nat) (podId : String) (ttl now : Nat) :
    Bool × LockStore :=
  match s configId with
  | none =>
      (true, fun c => if c = configId then
        some { configId := configId, lockedBy := podId, lockedAt := now,
               expiresAt := now + ttl } else s c)
  | some r =>
      if r.expiresAt < now then
        (true, fun c => if c = configId then
          some { configId := configId, lockedBy := podId, lockedAt := now,
                 expiresAt := now + ttl } else s c)
      else (false, s)

/-- Mirrors LockRepository.ReleaseLock: delete the record only when it is
owned by this pod; silently a no-op otherwise. -/
def ReleaseLock (s : LockStore) (configId : Nat) (podId : String) : LockStore :=
  fun c =>
    if c = configId then
      match s c with
      | some r => if r.lockedBy = podId then none else some r
      | none => none
    else s c

/-- Mirrors LockRepository.ReleaseAllLocks: delete every record owned by
this pod. -/
def ReleaseAllLocks (s : LockStore) (podId : String) : LockStore :=
  fun c =>
    match s c with
    | some r => if r.lockedBy = podId then none else some r
    | none => none

/-- Mirrors LockRepository.CleanExpiredLocks: delete every record whose
expiresAt lies strictly before now. -/
def CleanExpiredLocks (s : LockStore) (now : Nat) : LockStore :=
  fun c =>
    match s c with
    | some r => if r.expiresAt < now then none else some r
    | none => none

/-- Mirrors LockRepository.ExtendLock: push expiresAt to now + ttl only on
the record owned by this pod (not owned is an error, with no store
change). -/
def ExtendLock (s : LockStore) (configId : Nat) (podId : String) (ttl now : Nat) : LockStore :=
  fun c =>
    if c = configId then
      match s c with
      | some r => if r.lockedBy = podId then some { r with expiresAt := now + ttl } else some r
      | none => none
    else s c

/-- One atomic operation on the lock store, each carrying the instant at
which it runs (clock advancement is the increase of these instants). -/
inductive LockOp where
  | acquire (configId : Nat) (podId : String) (ttl now : Nat)
  | release (configId : Nat) (podId : String)
  | releaseAll (podId : String)
  | extend (configId : Nat) (podId : String) (ttl now : Nat)
  | clean (now : Nat)

def applyLockOp (s : LockStore) : LockOp → LockStore
  | .acquire cid pod ttl now => (AcquireLock s cid pod ttl now).2
  | .release cid pod => ReleaseLock s cid pod
  | .releaseAll pod => ReleaseAllLocks s pod
  | .extend cid pod ttl now => ExtendLock s cid pod ttl now
  | .clean now => CleanExpiredLocks s now

def applyLockOps (s : LockStore) (ops : List LockOp) : LockStore :=
  ops.foldl applyLockOp s

/-- pod holds an unexpired lease on configId at instant t: the store has a
record for configId with lockedBy = pod and expiresAt strictly after t. -/
def HoldsLease (s : LockStore) (configId : Nat) (pod : String) (t : Nat) : Prop :=
  ∃ r, s configId = some r ∧ r.lockedBy = pod ∧ t < r.expiresAt

/-- Sequential interleaving of concurrent AcquireLock attempts by several
pods for the same configId at the same instant (the document store
serializes the atomic upserts). Yields the per-attempt results in order and
the final store. -/
def acquireRace (s : LockStore) (configId : Nat) (now : Nat) :
    List (String × Nat) → List Bool × LockStore
  | [] => ([], s)
  | (pod, ttl) :: rest =>
      let r := AcquireLock s configId pod ttl now
      let tailRes := acquireRace r.2 configId now rest
      (r.1 :: tailRes.1, tailRes.2)

/-! ## Type-coercing comparator and rule evaluator (internal/evaluator) -/

/-- A Go interface value as decoded from JSON or BSON: nil, bool, number,
string, array or object. All Go numeric types (float64 from JSON, also the
int variants from BSON) are folded into exact rationals. -/
inductive GoVal where
  | vnull
  | vbool (b : Bool)
  | vnum (q : ℚ)
  | vstr (s : String)
  | varr (xs : List GoVal)
  | vobj (fields : List (String × GoVal))

/-- Behaviour of the external libraries the evaluator calls into, supplied
as oracles: strconv.ParseFloat, the fmt %v renderings of numbers, arrays
and objects, regexp.Compile (a compiled pattern is its MatchString
function), encoding/json Unmarshal (none on parse error) and
oliveagle/jsonpath (compile gives none on a bad expression; a compiled
pattern returns none when the lookup has no result, and can return vnull
when the path hits a JSON null). -/
structure EvalOracles where
  parseFloat : String → Option ℚ
  showNum : ℚ → String
  showArr : List GoVal → String
  showObj : List (String × GoVal) → String
  regexCompile : String → Option (String → Bool)
  unmarshal : String → Option GoVal
  jsonpathCompile : String → Option (GoVal → Option GoVal)

/-- Mirrors evaluator.CoerceToString: "null" for nil, fmt %v otherwise. -/
def CoerceToString (o : EvalOracles) : GoVal → String
  | .vnull => "null"
  | .vbool b => if b then "true" else "false"
  | .vnum q => o.showNum q
  | .vstr s => s
  | .varr xs => o.showArr xs
  | .vobj fs => o.showObj fs

/-- Mirrors evaluator.CoerceToNumber: numbers pass through, strings go
through ParseFloat, anything else (nil, bool, array, object) errors. -/
def CoerceToNumber (o : EvalOracles) : GoVal → Except String ℚ
  | .vnum q => .ok q
  | .vstr s =>
      match o.parseFloat s with
      | some q => .ok q
      | none => .error "cannot convert string to number"
  | _ => .error "cannot convert to number"

/-- strings.ToLower, over the character list. -/
def goToLower (s : String) : String :=
  ⟨s.data.map Char.toLower⟩

/-- strings.TrimSpace: strip leading and trailing whitespace. -/
def goTrimSpace (s : String) : String :=
  ⟨((s.data.dropWhile Char.isWhitespace).reverse.dropWhile Char.isWhitespace).reverse⟩

/-- Mirrors evaluator.CoerceToBool. The numeric case carries the Go
semantics of the int and float64 cases (value compared to zero). -/
def CoerceToBool (v : GoVal) : Bool :=
  match v with
  | .vnull => false
  | .vbool b => b
  | .vstr s =>
      let lower := goToLower (goTrimSpace s)
      if lower = "true" ∨ lower = "1" ∨ lower = "yes" then true
      else if lower = "false" ∨ lower = "0" ∨ lower = "no" ∨ lower = "" then false
      else s.length > 0
  | .vnum q => q != 0
  | .varr _ => true
  | .vobj _ => true

/-- Mirrors evaluator.AreEqual: nil equals only nil, then numeric
comparison when both sides coerce, then bool coercion when either side is a
bool, then comparison of the string forms. Never errors. -/
def AreEqual (o : EvalOracles) (a b : GoVal) : Bool :=
  match a, b with
  | .vnull, .vnull => true
  | .vnull, _ => false
  | _, .vnull => false
  | _, _ =>
      match CoerceToNumber o a, CoerceToNumber o b with
      | .ok na, .ok nb => na == nb
      | _, _ =>
          match a with
          | .vbool ba => ba == CoerceToBool b
          | _ =>
              match b with
              | .vbool bb => CoerceToBool a == bb
              | _ => CoerceToString o a == CoerceToString o b

/-- Mirrors evaluator.CompareNumbers: both operands coerced to numbers,
yielding -1, 0 or 1. -/
def CompareNumbers (o : EvalOracles) (a b : GoVal) : Except String Int :=
  match CoerceToNumber o a with
  | .error e => .error ("cannot compare: left value - " ++ e)
  | .ok na =>
      match CoerceToNumber o b with
      | .error e => .error ("cannot compare: right value - " ++ e)
      | .ok nb => .ok (if na < nb then -1 else if na > nb then 1 else 0)

/-- strings.Contains: substring test via splitting on the needle (an empty
needle is always contained). -/
def goStringContains (s t : String) : Bool :=
  if t = "" then true else (s.splitOn t).length ≥ 2

def evaluateEquals (o : EvalOracles) (extracted expected : GoVal) : Except String Bool :=
  .ok (AreEqual o extracted expected)

def evaluateGreaterThan (o : EvalOracles) (extracted expected : GoVal) : Except String Bool :=
  match CompareNumbers o extracted expected with
  | .error e => .error e
  | .ok c => .ok (decide (c > 0))

def evaluateLessThan (o : EvalOracles) (extracted expected : GoVal) : Except String Bool :=
  match CompareNumbers o extracted expected with
  | .error e => .error e
  | .ok c => .ok (decide (c < 0))

def evaluateGreaterThanOrEqual (o : EvalOracles) (extracted expected : GoVal) : Except String Bool :=
  match CompareNumbers o extracted expected with
  | .error e => .error e
  | .ok c => .ok (decide (c ≥ 0))

def evaluateLessThanOrEqual (o : EvalOracles) (extracted expected : GoVal) : Except String Bool :=
  match CompareNumbers o extracted expected with
  | .error e => .error e
  | .ok c => .ok (decide (c ≤ 0))

/-- Mirrors evaluator.evaluateContains: element equality for arrays, else
substring over the string forms. -/
def evaluateContains (o : EvalOracles) (extracted expected : GoVal) : Except String Bool :=
  match extracted with
  | .varr xs => .ok (xs.any (fun item => AreEqual o item expected))
  | _ => .ok (goStringContains (CoerceToString o extracted) (CoerceToString o expected))

/-- Mirrors evaluator.evaluateExists: true exactly when the extraction is
not nil. -/
def evaluateExists (extracted : GoVal) : Except String Bool :=
  match extracted with
  | .vnull => .ok false
  | _ => .ok true

/-- Mirrors evaluator.evaluateRegex: compile the string form of the
expected value, error on a bad pattern, else match the string form of the
extraction. -/
def evaluateRegex (o : EvalOracles) (extracted expected : GoVal) : Except String Bool :=
  match o.regexCompile (CoerceToString o expected) with
  | none => .error "invalid regex pattern"
  | some matcher => .ok (matcher (CoerceToString o extracted))

/-- Mirrors evaluator.EvaluateOperator. In the Go ne case the boolean is
negated and the error passed through; since evaluateEquals never errors the
Except composition is equivalent. -/
def EvaluateOperator (o : EvalOracles) (operator : String) (extracted expected : GoVal) :
    Except String Bool :=
  match goToLower operator with
  | "eq" => evaluateEquals o extracted expected
  | "ne" =>
      match evaluateEquals o extracted expected with
      | .error e => .error e
      | .ok r => .ok (!r)
  | "gt" => evaluateGreaterThan o extracted expected
  | "lt" => evaluateLessThan o extracted expected
  | "gte" => evaluateGreaterThanOrEqual o extracted expected
  | "lte" => evaluateLessThanOrEqual o extracted expected
  | "contains" => evaluateContains o extracted expected
  | "exists" => evaluateExists extracted
  | "regex" => evaluateRegex o extracted expected
  | _ => .error "unknown operator"

/-- Mirrors model.Rule restricted to the fields the evaluator reads. -/
structure Rule where
  name : String
  expression : String
  operator : String
  expectedValue : GoVal
  alertOnMatch : Bool

/-- Mirrors model.RuleEvaluation. extractedValue none models the unset Go
nil interface field. -/
structure RuleEvaluation where
  ruleName : String
  expression : String
  operator : String
  expectedValue : GoVal
  extractedValue : Option GoVal
  matched : Bool
  error : String

/-- Mirrors Evaluator.extractValue: compile the JSONPath, then look up. -/
def extractValue (o : EvalOracles) (jsonData : GoVal) (expression : String) :
    Except String GoVal :=
  match o.jsonpathCompile expression with
  | none => .error "invalid JSONPath expression"
  | some look =>
      match look jsonData with
      | none => .error "JSONPath expression returned no results"
      | some v => .ok v

/-- Mirrors Evaluator.EvaluateRule: parse the body, extract, apply the
operator; each failure leaves matched false and records the error. -/
def EvaluateRule (o : EvalOracles) (rule : Rule) (responseBody : String) : RuleEvaluation :=
  let result : RuleEvaluation :=
    { ruleName := rule.name, expression := rule.expression, operator := rule.operator,
      expectedValue := rule.expectedValue, extractedValue := none,
      matched := false, error := "" }
  match o.unmarshal responseBody with
  | none => { result with error := "Failed to parse JSON response" }
  | some jsonData =>
      match extractValue o jsonData rule.expression with
      | .error e => { result with error := e }
      | .ok extracted =>
          let result := { result with extractedValue := some extracted }
          match EvaluateOperator o rule.operator extracted rule.expectedValue with
          | .error e => { result with error := e }
          | .ok m => { result with matched := m }

/-- Mirrors Evaluator.EvaluateRules. -/
def EvaluateRules (o : EvalOracles) (rules : List Rule) (responseBody : String) :
    List RuleEvaluation :=
  rules.map (fun r => EvaluateRule o r responseBody)

/-- The alert_on_match lookup map built by GetMatchedRulesForAlert: the Go
map is filled in rule order so a later rule with the same name wins, and a
missing name gives the zero value false. -/
def alertOnMatchMap (rules : List Rule) (name : String) : Bool :=
  match rules.reverse.find? (fun r => r.name == name) with
  | some r => r.alertOnMatch
  | none => false

/-- Mirrors Evaluator.GetMatchedRulesForAlert. -/
def GetMatchedRulesForAlert (evaluations : List RuleEvaluation) (rules : List Rule) :
    List RuleEvaluation :=
  evaluations.filter (fun e => e.matched && alertOnMatchMap rules e.ruleName)

/-! ## Execution engine (internal/service/executor.go) -/

/-- Mirrors model.AlertTriggered. -/
structure AlertTriggered where
  alertId : Nat
  triggeredByRule : String
  webhookUrl : String
deriving Repr, DecidableEq

/-- Mirrors model.HealthCheckConfig restricted to the fields the alert path
of the executor reads. -/
structure HealthCheckConfig where
  id : Nat
  webhook : Webhook
  rules : List Rule

/-- Mirrors Executor.triggerAlert: send the alert, stamp the configId on
the returned AlertLog, persist it (returned to the caller, persist failures
being only logged), and hand back the AlertLog id together with the
SendAlert error. -/
def triggerAlert (cfg : HealthCheckConfig) (corrId : String) (ruleEval : RuleEvaluation)
    (newId : Nat) (deliver : Nat → DeliveryOutcome) (cancelled : Nat → Bool)
    (cb : CircuitBreaker) (now : Nat) :
    (Nat × Option String) × AlertLog × CircuitBreaker :=
  let res := SendAlert cfg.webhook corrId newId deliver cancelled cb now
  let log := { res.1 with configId := cfg.id }
  ((log.id, res.2.1), log, res.2.2)

/-- The alert loop of Executor.Execute over the matched-alert rules: each
rule is dispatched in order (ids, deliver and cancelled are indexed by the
position in the list); the AlertLog of every dispatch is persisted, and an
AlertTriggered entry is appended only when triggerAlert reported no
error. -/
def processMatchedAlerts (cfg : HealthCheckConfig) (corrId : String) (ids : Nat → Nat)
    (deliver : Nat → Nat → DeliveryOutcome) (cancelled : Nat → Nat → Bool) (now : Nat) :
    List RuleEvaluation → Nat → CircuitBreaker →
      List AlertLog × List AlertTriggered × CircuitBreaker
  | [], _, cb => ([], [], cb)
  | ruleEval :: rest, i, cb =>
      let ta := triggerAlert cfg corrId ruleEval (ids i) (deliver i) (cancelled i) cb now
      let tailRes := processMatchedAlerts cfg corrId ids deliver cancelled now rest (i + 1) ta.2.2
      (ta.2.1 :: tailRes.1,
        (match ta.1.2 with
          | none =>
              { alertId := ta.1.1, triggeredByRule := ruleEval.ruleName,
                webhookUrl := cfg.webhook.url } :: tailRes.2.1
          | some _ => tailRes.2.1),
        tailRes.2.2)

/-- Specification-side view of the same loop: the sequence of per-rule
dispatch results (the rule, the AlertLog id and error returned by
triggerAlert, and the persisted AlertLog), with the breaker threaded
through in order. -/
def alertDispatchTrace (cfg : HealthCheckConfig) (corrId : String) (ids : Nat → Nat)
    (deliver : Nat → Nat → DeliveryOutcome) (cancelled : Nat → Nat → Bool) (now : Nat) :
    List RuleEvaluation → Nat → CircuitBreaker →
      List (RuleEvaluation × (Nat × Option String) × AlertLog)
  | [], _, _ => []
  | ruleEval :: rest, i, cb =>
      let ta := triggerAlert cfg corrId ruleEval (ids i) (deliver i) (cancelled i) cb now
      (ruleEval, ta.1, ta.2.1) ::
        alertDispatchTrace cfg corrId ids deliver cancelled now rest (i + 1) ta.2.2

/-- The parts of an execution the post-call phase of Executor.Execute
determines: the verdicts, the triggered-alert entries, the persisted
AlertLogs and the terminal status. -/
structure ExecOutcome where
  rulesEvaluation : List RuleEvaluation
  alertsTriggered : List AlertTriggered
  savedAlertLogs : List AlertLog
  status : String

/-- Mirrors the evaluation, alerting and status-classification phase of
Executor.Execute: rules are evaluated only when the target call returned
without transport error with a 2xx status; the status is failed on
transport error, else partial when some verdict carries an error, else
success. -/
def executeCore (o : EvalOracles) (cfg : HealthCheckConfig) (corrId : String)
    (callErr : Bool) (statusCode : Int) (respBody : String) (ids : Nat → Nat)
    (deliver : Nat → Nat → DeliveryOutcome) (cancelled : Nat → Nat → Bool)
    (cb : CircuitBreaker) (now : Nat) : ExecOutcome :=
  let er :=
    if callErr = false ∧ 200 ≤ statusCode ∧ statusCode < 300 then
      let rulesEvaluation := EvaluateRules o cfg.rules respBody
      let matchedAlerts := GetMatchedRulesForAlert rulesEvaluation cfg.rules
      let pr := processMatchedAlerts cfg corrId ids deliver cancelled now matchedAlerts 0 cb
      (rulesEvaluation, pr.2.1, pr.1)
    else ([], [], [])
  let status :=
    if callErr then "failed"
    else if er.1.length > 0 ∧ er.1.any (fun e => e.error != "") then "partial"
    else "success"
  { rulesEvaluation := er.1, alertsTriggered := er.2.1, savedAlertLogs := er.2.2,
    status := status }

/-- Oracles that fail every external call: ParseFloat rejects, renderings
are empty, patterns do not compile, bodies do not parse. -/
def failingOracles : EvalOracles :=
  { parseFloat := fun _ => none
    showNum := fun _ => ""
    showArr := fun _ => ""
    showObj := fun _ => ""
    regexCompile := fun _ => none
    unmarshal := fun _ => none
    jsonpathCompile := fun _ => none }

/-- Oracles on which every external call succeeds trivially: bodies parse
to the number 1 and every JSONPath returns the document itself. -/
def happyOracles : EvalOracles :=
  { parseFloat := fun _ => none
    showNum := fun _ => ""
    showArr := fun _ => ""
    showObj := fun _ => ""
    regexCompile := fun _ => none
    unmarshal := fun _ => some (.vnum 1)
    jsonpathCompile := fun _ => some (fun d => some d) }

/-! ## Theorems -/

/-- The default retry configuration in explicit form. -/
theorem defaultRetryConfig_eq : defaultRetryConfig = ⟨3, 1000, 30000, 2⟩ := by
  decide

/-- C9: under the default retry parameters, CalculateDelay is monotone from
attempt 1 on, never exceeds maxDelayMs = 30000 milliseconds, and is zero at
attempt 0. -/
theorem calculateDelay_monotone_bounded :
    (∀ n : Int, 1 ≤ n →
      CalculateDelay defaultRetryConfig n ≤ CalculateDelay defaultRetryConfig (n + 1))
    ∧ (∀ n : Int, CalculateDelay defaultRetryConfig n ≤ (30000 : ℚ))
    ∧ CalculateDelay defaultRetryConfig 0 = 0 := by
  rw [defaultRetryConfig_eq]
  refine ⟨?_, ?_, by norm_num [CalculateDelay]⟩
  · intro n hn
    have hn0 : ¬ n ≤ 0 := by omega
    have hn1 : ¬ n + 1 ≤ 0 := by omega
    have hk : (n + 1 - 1).toNat = (n - 1).toNat + 1 := by omega
    simp only [CalculateDelay, if_neg hn0, if_neg hn1, hk]
    set k := (n - 1).toNat
    have hpow : (1000 : ℚ) * 2 ^ k ≤ 1000 * 2 ^ (k + 1) := by
      have h2 : (2 : ℚ) ^ k ≤ 2 ^ (k + 1) :=
        pow_le_pow_right₀ (by norm_num) (Nat.le_succ k)
      nlinarith
    split_ifs with h1 h2 h2 <;> simp_all <;> nlinarith
  · intro n
    by_cases hn : n ≤ 0
    · simp [CalculateDelay, hn]
    · simp only [CalculateDelay, if_neg hn]
      split_ifs with h
      · norm_num
      · exact le_of_not_lt (by exact_mod_cast h)

/-- C9 witness: the theorem applied at attempt 2 and attempt 7. -/
theorem calculateDelay_monotone_bounded_witness :
    ((1 : Int) ≤ 2 ∧
      CalculateDelay defaultRetryConfig 2 ≤ CalculateDelay defaultRetryConfig 3)
    ∧ CalculateDelay defaultRetryConfig 7 ≤ (30000 : ℚ) :=
  ⟨⟨by decide, calculateDelay_monotone_bounded.1 2 (by decide)⟩,
    calculateDelay_monotone_bounded.2.1 7⟩

/-- C4: the complete truth table of ShouldRetry. The call returns true
exactly when the attempt number is below maxAttempts and either the error
was non-nil, or the status is in the 5xx range, or is 429, or is at least
300 and outside the 4xx range; in particular it returns false for a 2xx
status with nil error and false whenever the attempt number reaches
maxAttempts. -/
theorem shouldRetry_iff (rc : RetryConfig) (n status : Int) (e : Bool) :
    ShouldRetry rc n status e = true ↔
      n < rc.maxAttempts ∧
        (e = true ∨ (500 ≤ status ∧ status < 600) ∨ status = 429 ∨
          (¬(400 ≤ status ∧ status < 500) ∧ 300 ≤ status)) := by
  simp only [ShouldRetry]
  split_ifs with h1 h2 h3 h4 h5 h6 <;>
    simp_all <;> omega

/-- C4 witness: the theorem applied at concrete inputs — attempt 1 with
status 429 retries, and a 404 on attempt 1 does not. -/
theorem shouldRetry_iff_witness :
    ShouldRetry defaultRetryConfig 1 429 false = true ∧
      ShouldRetry defaultRetryConfig 1 404 false = false := by
  constructor
  · exact (shouldRetry_iff defaultRetryConfig 1 429 false).mpr
      (by refine ⟨by decide, Or.inr (Or.inr (Or.inl rfl))⟩)
  · have h := (shouldRetry_iff defaultRetryConfig 1 404 false).not
    simp only [Bool.not_eq_true] at h
    exact h.mpr (by decide)

/-- Once opened, record-success and record-failure events keep the breaker
opened (only CanAttempt can move it to half-open). -/
theorem applyEvents_opened_absorbing (es : List CBEvent) :
    ∀ (cb : CircuitBreaker), cb.state = .opened →
      (cb.applyEvents es).state = .opened := by
  induction es with
  | nil => intro cb h; exact h
  | cons e rest ih =>
    intro cb h
    apply ih
    cases e <;>
      simp [CircuitBreaker.applyEvent, CircuitBreaker.RecordSuccess,
        CircuitBreaker.RecordFailure, h]

/-- From a closed breaker whose failure count is the trailing failure
streak, the run of events opens the breaker exactly when it completes a
streak reaching the threshold. -/
theorem applyEvents_closed_opened_iff (es : List CBEvent) :
    ∀ (cb : CircuitBreaker), cb.state = .closed →
      cb.failureCount < cb.failureThreshold →
      ((cb.applyEvents es).state = .opened ↔
        cb.failureThreshold ≤ maxFailStreakFrom cb.failureCount es) := by
  induction es with
  | nil =>
    intro cb hs hc
    simp only [CircuitBreaker.applyEvents, List.foldl_nil, maxFailStreakFrom, hs]
    constructor
    · intro h; cases h
    · omega
  | cons e rest ih =>
    intro cb hs hc
    cases e with
    | success t =>
      have hstep : cb.applyEvent (.success t) =
          { cb with lastFailureTime := 0, failureCount := 0 } := by
        simp only [CircuitBreaker.applyEvent, CircuitBreaker.RecordSuccess]
        split <;> simp_all
      have h1 : (cb.applyEvents (.success t :: rest)).state =
          (({ cb with lastFailureTime := 0, failureCount := 0 } : CircuitBreaker).applyEvents rest).state := by
        simp only [CircuitBreaker.applyEvents, List.foldl_cons, hstep]
      rw [h1, maxFailStreakFrom]
      simp only [CBEvent.isFailure, Bool.false_eq_true, if_false]
      have hih := ih { cb with lastFailureTime := 0, failureCount := 0 }
        (by simpa using hs) (by simp; omega)
      simpa using hih
    | failure t =>
      by_cases hth : cb.failureCount + 1 ≥ cb.failureThreshold
      · have hstep : (cb.applyEvent (.failure t)).state = .opened := by
          simp only [CircuitBreaker.applyEvent, CircuitBreaker.RecordFailure]
          split <;> simp_all
        have h1 : (cb.applyEvents (.failure t :: rest)).state = .opened := by
          simp only [CircuitBreaker.applyEvents, List.foldl_cons]
          exact applyEvents_opened_absorbing rest _ hstep
        rw [h1, maxFailStreakFrom]
        simp only [CBEvent.isFailure, if_true]
        constructor
        · intro _
          exact le_trans hth (le_max_left _ _)
        · intro _
          trivial
      · have hstep : cb.applyEvent (.failure t) =
            { cb with lastFailureTime := t, failureCount := cb.failureCount + 1 } := by
          simp only [CircuitBreaker.applyEvent, CircuitBreaker.RecordFailure]
          split <;> simp_all
        have h1 : cb.applyEvents (.failure t :: rest) =
            (({ cb with lastFailureTime := t, failureCount := cb.failureCount + 1 } : CircuitBreaker).applyEvents rest) := by
          simp only [CircuitBreaker.applyEvents, List.foldl_cons, hstep]
        have hih := ih { cb with lastFailureTime := t, failureCount := cb.failureCount + 1 }
          (by simpa using hs) (by simp; omega)
        simp only at hih
        rw [h1, hih, maxFailStreakFrom]
        simp only [CBEvent.isFailure, if_true]
        constructor
        · intro h
          exact le_trans h (le_max_right _ _)
        · intro h
          rcases le_max_iff.mp h with h2 | h2
          · omega
          · exact h2

/-- C3: starting from a fresh breaker (Closed, zero counters), a sequence of
record-success and record-failure calls leaves the breaker Open exactly when
it contains failureThreshold = 5 consecutive failures with no interleaved
success; and any record-success while Closed resets the failure counter to
zero. -/
theorem circuitBreaker_opens_iff_consecutive_failures :
    (∀ (t0 : Nat) (es : List CBEvent),
      ((NewCircuitBreaker t0).applyEvents es).state = .opened ↔ 5 ≤ maxFailStreak es)
    ∧ (∀ (cb : CircuitBreaker) (t : Nat), cb.state = .closed →
      (cb.RecordSuccess t).failureCount = 0) := by
  constructor
  · intro t0 es
    have h := applyEvents_closed_opened_iff es (NewCircuitBreaker t0) rfl
      (by simp [NewCircuitBreaker])
    simpa [NewCircuitBreaker, maxFailStreak] using h
  · intro cb t hs
    simp only [CircuitBreaker.RecordSuccess]
    split <;> simp_all

/-- C7: whenever the circuit breaker forbids the attempt, SendAlert returns
an AlertLog with an empty attempts list and finalStatus failed together
with the circuit-open error, leaving the breaker as CanAttempt left it; the
result does not depend on the delivery oracle, so no HTTP delivery attempt
is performed. -/
theorem sendAlert_circuit_open_fast_fail (w : Webhook) (cid : String) (newId : Nat)
    (deliver : Nat → DeliveryOutcome) (cancelled : Nat → Bool)
    (cb : CircuitBreaker) (now : Nat) (h : (cb.CanAttempt now).1 = false) :
    SendAlert w cid newId deliver cancelled cb now =
      ({ id := newId, configId := 0, correlationId := cid, webhookUrl := w.url,
         attempts := [], finalStatus := "failed" },
        some "circuit breaker is open", (cb.CanAttempt now).2) := by
  simp only [SendAlert, h, if_pos]

/-- C7 witness: the theorem applied to a breaker opened 10 seconds ago. -/
theorem sendAlert_circuit_open_fast_fail_witness :
    ((⟨.opened, 5, 0, 100, 100, 5, 2, 60⟩ : CircuitBreaker).CanAttempt 110).1 = false ∧
      SendAlert ⟨"http://sink.example", ⟨0, 0, 0, 0⟩⟩ "corr-1" 7
          (fun _ => DeliveryOutcome.status 200) (fun _ => false)
          ⟨.opened, 5, 0, 100, 100, 5, 2, 60⟩ 110 =
        ({ id := 7, configId := 0, correlationId := "corr-1",
           webhookUrl := "http://sink.example", attempts := [],
           finalStatus := "failed" },
          some "circuit breaker is open",
          ((⟨.opened, 5, 0, 100, 100, 5, 2, 60⟩ : CircuitBreaker).CanAttempt 110).2) :=
  ⟨by decide,
    sendAlert_circuit_open_fast_fail ⟨"http://sink.example", ⟨0, 0, 0, 0⟩⟩ "corr-1" 7
      (fun _ => DeliveryOutcome.status 200) (fun _ => false)
      ⟨.opened, 5, 0, 100, 100, 5, 2, 60⟩ 110 (by decide)⟩

/-- C2: evaluation of the code at the claim input. A webhook sink that
answers 404 to every delivery attempt, with the default retry parameters
and a fresh closed breaker, produces an AlertLog with three attempts, not
one: deliverWebhook returns a non-nil error for every non-2xx status, and
ShouldRetry treats any non-nil error as a retryable transport error, so the
4xx-no-retry branch is never reached from the dispatcher. The finalStatus
is failed and the breaker records exactly one failure. -/
theorem sendAlert_404_three_attempts :
    (SendAlert ⟨"http://sink.example", ⟨0, 0, 0, 0⟩⟩ "corr-2" 3
        (fun _ => DeliveryOutcome.status 404) (fun _ => false)
        (NewCircuitBreaker 0) 0).1.attempts.length = 3 ∧
      (SendAlert ⟨"http://sink.example", ⟨0, 0, 0, 0⟩⟩ "corr-2" 3
          (fun _ => DeliveryOutcome.status 404) (fun _ => false)
          (NewCircuitBreaker 0) 0).1.finalStatus = "failed" ∧
      (SendAlert ⟨"http://sink.example", ⟨0, 0, 0, 0⟩⟩ "corr-2" 3
          (fun _ => DeliveryOutcome.status 404) (fun _ => false)
          (NewCircuitBreaker 0) 0).2.2.failureCount = 1 := by
  decide

/-- If configId carries a record that is not yet expired at the shared
instant, every attempt of the race fails and the store is unchanged. -/
theorem acquireRace_live (attempts : List (String × Nat)) :
    ∀ (s : LockStore) (configId now : Nat) (r : ScheduleLock),
      s configId = some r → ¬ r.expiresAt < now →
      (acquireRace s configId now attempts).1.count true = 0 := by
  induction attempts with
  | nil => intro s configId now r _ _; rfl
  | cons a rest ih =>
    intro s configId now r hr hlive
    obtain ⟨pod, ttl⟩ := a
    have hacq : AcquireLock s configId pod ttl now = (false, s) := by
      simp only [AcquireLock, hr, if_neg hlive]
    simp only [acquireRace, hacq, List.count_cons]
    have := ih s configId now r hr hlive
    simp only [this]
    simp

/-- C1: lease mutual exclusion. First, at every instant and for every
configId at most one pod holds an unexpired lease after any interleaving of
acquire, release, release-all, extend, clean and clock advancement from the
empty store (the unique config_id index keeps one record per configId).
Second, of several pods attempting AcquireLock concurrently on the same
configId at the same instant, at most one receives true: once an attempt
succeeds the record expires at now + ttl, which the strict expiresAt < now
filter of every later attempt rejects. -/
theorem lease_mutual_exclusion :
    (∀ (ops : List LockOp) (configId t : Nat) (p q : String),
      HoldsLease (applyLockOps emptyLockStore ops) configId p t →
      HoldsLease (applyLockOps emptyLockStore ops) configId q t → p = q)
    ∧ (∀ (s : LockStore) (configId now : Nat) (attempts : List (String × Nat)),
      (acquireRace s configId now attempts).1.count true ≤ 1) := by
  constructor
  · intro ops configId t p q hp hq
    obtain ⟨r, hr, hrp, _⟩ := hp
    obtain ⟨r2, hr2, hrq, _⟩ := hq
    rw [hr] at hr2
    cases hr2
    rw [← hrp, ← hrq]
  · intro s configId now attempts
    induction attempts generalizing s with
    | nil => simp [acquireRace]
    | cons a rest ih =>
      obtain ⟨pod, ttl⟩ := a
      match hm : s configId with
      | none =>
        have hacq : (AcquireLock s configId pod ttl now).1 = true ∧
            (AcquireLock s configId pod ttl now).2 configId =
              some { configId := configId, lockedBy := pod, lockedAt := now,
                     expiresAt := now + ttl } := by
          simp [AcquireLock, hm]
        simp only [acquireRace, List.count_cons, hacq.1]
        have hz := acquireRace_live rest (AcquireLock s configId pod ttl now).2
          configId now _ hacq.2 (by simp)
        simp [hz]
      | some r =>
        by_cases hexp : r.expiresAt < now
        · have hacq : (AcquireLock s configId pod ttl now).1 = true ∧
              (AcquireLock s configId pod ttl now).2 configId =
                some { configId := configId, lockedBy := pod, lockedAt := now,
                       expiresAt := now + ttl } := by
            simp [AcquireLock, hm, hexp]
          simp only [acquireRace, List.count_cons, hacq.1]
          have hz := acquireRace_live rest (AcquireLock s configId pod ttl now).2
            configId now _ hacq.2 (by simp)
          simp [hz]
        · have hacq : AcquireLock s configId pod ttl now = (false, s) := by
            simp only [AcquireLock, hm, if_neg hexp]
          simp only [acquireRace, hacq, List.count_cons]
          have := ih s
          simp
          omega

/-- C1 witness: after one acquire from the empty store, two holders of the
lease on config 0 at instant 5 coincide; and a two-pod race on an empty
store yields at most one success. -/
theorem lease_mutual_exclusion_witness :
    ("podA" : String) = "podA" ∧
      (acquireRace emptyLockStore 0 0 [("podA", 10), ("podB", 10)]).1.count true ≤ 1 :=
  ⟨lease_mutual_exclusion.1 [LockOp.acquire 0 "podA" 10 0] 0 5 "podA" "podA"
      ⟨{ configId := 0, lockedBy := "podA", lockedAt := 0, expiresAt := 10 },
        rfl, rfl, by decide⟩
      ⟨{ configId := 0, lockedBy := "podA", lockedAt := 0, expiresAt := 10 },
        rfl, rfl, by decide⟩,
    lease_mutual_exclusion.2 emptyLockStore 0 0 [("podA", 10), ("podB", 10)]⟩

/-- C3 witness: five consecutive failures open a fresh breaker, and a
success on a closed breaker zeroes its failure count. -/
theorem circuitBreaker_opens_iff_consecutive_failures_witness :
    ((NewCircuitBreaker 0).applyEvents
        [CBEvent.failure 1, CBEvent.failure 2, CBEvent.failure 3,
          CBEvent.failure 4, CBEvent.failure 5]).state = CircuitState.opened
    ∧ ((NewCircuitBreaker 0).RecordSuccess 3).failureCount = 0 :=
  ⟨(circuitBreaker_opens_iff_consecutive_failures.1 0 _).mpr (by decide),
    circuitBreaker_opens_iff_consecutive_failures.2 (NewCircuitBreaker 0) 3 rfl⟩

/-- C8: a verdict returned by EvaluateRule with matched true carries an
empty error, whatever the behaviour of the JSON parser, the JSONPath
library, the regexp engine and the number formatting. -/
theorem evaluateRule_matched_no_error (o : EvalOracles) (rule : Rule) (body : String) :
    (EvaluateRule o rule body).matched = true → (EvaluateRule o rule body).error = "" := by
  intro h
  simp only [EvaluateRule] at h ⊢
  cases hm : o.unmarshal body with
  | none => simp [hm] at h
  | some jsonData =>
    simp only [hm] at h ⊢
    cases he : extractValue o jsonData rule.expression with
    | error e => simp [he] at h
    | ok extracted =>
      simp only [he] at h ⊢
      cases hop : EvaluateOperator o rule.operator extracted rule.expectedValue with
      | error e => simp [hop] at h
      | ok m => simp [hop]

/-- C8 witness: the theorem applied to an exists rule on oracles where
parsing and extraction succeed, so the verdict is matched. -/
theorem evaluateRule_matched_no_error_witness :
    (EvaluateRule happyOracles ⟨"r1", "$.x", "exists", GoVal.vnull, true⟩ "x").matched = true
    ∧ (EvaluateRule happyOracles ⟨"r1", "$.x", "exists", GoVal.vnull, true⟩ "x").error = "" :=
  ⟨rfl, evaluateRule_matched_no_error happyOracles ⟨"r1", "$.x", "exists", GoVal.vnull, true⟩
    "x" rfl⟩

/-- C5 counterexample: the eq operator also tolerates a null extraction —
EvaluateOperator returns a verdict with no error (AreEqual is total), so
exists is not the only such operator. -/
theorem evaluateOperator_eq_tolerates_null :
    EvaluateOperator failingOracles "eq" GoVal.vnull (GoVal.vnum 42) = Except.ok false
    ∧ ("eq" : String) ≠ "exists" := by
  exact ⟨rfl, by decide⟩

/-- C5 amended: on a null extraction, exists returns false with no error,
and eq, ne and contains likewise return without error; only the numeric
operators gt, lt, gte, lte always error on null, while regex errors exactly
when the expected pattern fails to compile (the null merely matches as the
string form "null"). -/
theorem evaluateOperator_null_tolerance (o : EvalOracles) (expected : GoVal) :
    EvaluateOperator o "exists" GoVal.vnull expected = Except.ok false
    ∧ (∃ b, EvaluateOperator o "eq" GoVal.vnull expected = Except.ok b)
    ∧ (∃ b, EvaluateOperator o "ne" GoVal.vnull expected = Except.ok b)
    ∧ (∃ b, EvaluateOperator o "contains" GoVal.vnull expected = Except.ok b)
    ∧ (∀ op : String, op = "gt" ∨ op = "lt" ∨ op = "gte" ∨ op = "lte" →
        ∃ e, EvaluateOperator o op GoVal.vnull expected = Except.error e)
    ∧ (o.regexCompile (CoerceToString o expected) = none →
        ∃ e, EvaluateOperator o "regex" GoVal.vnull expected = Except.error e)
    ∧ (∀ m, o.regexCompile (CoerceToString o expected) = some m →
        EvaluateOperator o "regex" GoVal.vnull expected = Except.ok (m "null")) := by
  refine ⟨rfl, ⟨AreEqual o GoVal.vnull expected, rfl⟩,
    ⟨!AreEqual o GoVal.vnull expected, rfl⟩,
    ⟨goStringContains "null" (CoerceToString o expected), rfl⟩, ?_, ?_, ?_⟩
  · intro op hop
    rcases hop with rfl | rfl | rfl | rfl <;> exact ⟨_, rfl⟩
  · intro h
    have hred : EvaluateOperator o "regex" GoVal.vnull expected =
        evaluateRegex o GoVal.vnull expected := rfl
    rw [hred]
    unfold evaluateRegex
    rw [h]
    exact ⟨_, rfl⟩
  · intro m h
    have hred : EvaluateOperator o "regex" GoVal.vnull expected =
        evaluateRegex o GoVal.vnull expected := rfl
    rw [hred]
    unfold evaluateRegex
    rw [h]
    rfl

/-- C5 amended witness: the theorem applied to a concrete expected value —
exists yields false without error and gt errors on the null. -/
theorem evaluateOperator_null_tolerance_witness :
    EvaluateOperator failingOracles "exists" GoVal.vnull (GoVal.vstr "x") = Except.ok false
    ∧ (∃ e, EvaluateOperator failingOracles "gt" GoVal.vnull (GoVal.vstr "x") =
        Except.error e) :=
  ⟨(evaluateOperator_null_tolerance failingOracles (GoVal.vstr "x")).1,
    (evaluateOperator_null_tolerance failingOracles (GoVal.vstr "x")).2.2.2.2.1 "gt"
      (Or.inl rfl)⟩

/-- C6 counterexample: one matched-alert rule whose webhook delivery fails
(sink answers 404 throughout): the AlertLog is persisted but no
AlertTriggered entry is appended, contradicting appending regardless of
delivery outcome. -/
theorem processMatchedAlerts_404_no_entry :
    (processMatchedAlerts ⟨5, ⟨"http://sink.example", ⟨0, 0, 0, 0⟩⟩, []⟩ "corr-3"
        (fun _ => 9) (fun _ _ => DeliveryOutcome.status 404) (fun _ _ => false) 0
        [⟨"r1", "$.x", "eq", GoVal.vnull, none, true, ""⟩] 0 (NewCircuitBreaker 0)).2.1 = []
    ∧ (processMatchedAlerts ⟨5, ⟨"http://sink.example", ⟨0, 0, 0, 0⟩⟩, []⟩ "corr-3"
        (fun _ => 9) (fun _ _ => DeliveryOutcome.status 404) (fun _ _ => false) 0
        [⟨"r1", "$.x", "eq", GoVal.vnull, none, true, ""⟩] 0 (NewCircuitBreaker 0)).1.length = 1 := by
  exact ⟨rfl, rfl⟩

/-- C6 amended: for every matched-alert rule the engine persists the
AlertLog returned by the dispatcher with configId stamped, regardless of
delivery outcome (one log per rule, in order); an AlertTriggered entry
with that log id, the rule name and the webhook URL is appended only for
the rules whose dispatch returned no error. -/
theorem processMatchedAlerts_spec (matched : List RuleEvaluation) :
    ∀ (cfg : HealthCheckConfig) (corrId : String) (ids : Nat → Nat)
      (deliver : Nat → Nat → DeliveryOutcome) (cancelled : Nat → Nat → Bool)
      (now i : Nat) (cb : CircuitBreaker),
      (processMatchedAlerts cfg corrId ids deliver cancelled now matched i cb).1 =
        (alertDispatchTrace cfg corrId ids deliver cancelled now matched i cb).map
          (fun x => x.2.2)
      ∧ (∀ log ∈ (processMatchedAlerts cfg corrId ids deliver cancelled now matched i cb).1,
          log.configId = cfg.id)
      ∧ (processMatchedAlerts cfg corrId ids deliver cancelled now matched i cb).2.1 =
          (alertDispatchTrace cfg corrId ids deliver cancelled now matched i cb).filterMap
            (fun x =>
              match x.2.1.2 with
              | none => some { alertId := x.2.1.1, triggeredByRule := x.1.ruleName,
                               webhookUrl := cfg.webhook.url }
              | some _ => none) := by
  induction matched with
  | nil =>
    intro cfg corrId ids deliver cancelled now i cb
    refine ⟨rfl, ?_, rfl⟩
    intro log hlog
    cases hlog
  | cons ruleEval rest ih =>
    intro cfg corrId ids deliver cancelled now i cb
    obtain ⟨ih1, ih2, ih3⟩ := ih cfg corrId ids deliver cancelled now (i + 1)
      (triggerAlert cfg corrId ruleEval (ids i) (deliver i) (cancelled i) cb now).2.2
    refine ⟨?_, ?_, ?_⟩
    · simp only [processMatchedAlerts, alertDispatchTrace, List.map_cons]
      rw [ih1]
    · intro log hlog
      simp only [processMatchedAlerts, List.mem_cons] at hlog
      rcases hlog with rfl | hlog
      · rfl
      · exact ih2 log hlog
    · simp only [processMatchedAlerts, alertDispatchTrace, List.filterMap_cons]
      cases herr : (triggerAlert cfg corrId ruleEval (ids i) (deliver i) (cancelled i) cb now).1.2 with
      | none => simp only [herr, ih3]
      | some e => simp only [herr, ih3]

/-- C6 amended witness: with a sink that always answers 200 and a closed
breaker, the single matched rule yields one persisted stamped log and one
AlertTriggered entry, matching the dispatch trace. -/
theorem processMatchedAlerts_spec_witness :
    (processMatchedAlerts ⟨5, ⟨"http://sink.example", ⟨0, 0, 0, 0⟩⟩, []⟩ "corr-4"
        (fun _ => 9) (fun _ _ => DeliveryOutcome.status 200) (fun _ _ => false) 0
        [⟨"r1", "$.x", "eq", GoVal.vnull, none, true, ""⟩] 0 (NewCircuitBreaker 0)).1 =
      (alertDispatchTrace ⟨5, ⟨"http://sink.example", ⟨0, 0, 0, 0⟩⟩, []⟩ "corr-4"
        (fun _ => 9) (fun _ _ => DeliveryOutcome.status 200) (fun _ _ => false) 0
        [⟨"r1", "$.x", "eq", GoVal.vnull, none, true, ""⟩] 0 (NewCircuitBreaker 0)).map
        (fun x => x.2.2) :=
  (processMatchedAlerts_spec [⟨"r1", "$.x", "eq", GoVal.vnull, none, true, ""⟩]
    ⟨5, ⟨"http://sink.example", ⟨0, 0, 0, 0⟩⟩, []⟩ "corr-4" (fun _ => 9)
    (fun _ _ => DeliveryOutcome.status 200) (fun _ _ => false) 0 0
    (NewCircuitBreaker 0)).1

/-- C10: when the target call completes without transport error but with a
status outside the 2xx range, the execution evaluates no rules, triggers no
alerts, persists no alert logs, and its status is classified success. -/
theorem execute_non2xx_success (o : EvalOracles) (cfg : HealthCheckConfig)
    (corrId : String) (statusCode : Int) (respBody : String) (ids : Nat → Nat)
    (deliver : Nat → Nat → DeliveryOutcome) (cancelled : Nat → Nat → Bool)
    (cb : CircuitBreaker) (now : Nat)
    (h : ¬(200 ≤ statusCode ∧ statusCode < 300)) :
    executeCore o cfg corrId false statusCode respBody ids deliver cancelled cb now =
      { rulesEvaluation := [], alertsTriggered := [], savedAlertLogs := [],
        status := "success" } := by
  simp only [executeCore]
  rw [if_neg (fun hc => h hc.2)]
  simp

/-- C10 witness: the theorem applied to a 404 from the monitored API. -/
theorem execute_non2xx_success_witness :
    executeCore failingOracles ⟨5, ⟨"http://sink.example", ⟨0, 0, 0, 0⟩⟩, []⟩ "corr-5"
        false 404 "irrelevant" (fun _ => 9) (fun _ _ => DeliveryOutcome.status 200)
        (fun _ _ => false) (NewCircuitBreaker 0) 0 =
      { rulesEvaluation := [], alertsTriggered := [], savedAlertLogs := [],
        status := "success" } :=
  execute_non2xx_success failingOracles ⟨5, ⟨"http://sink.example", ⟨0, 0, 0, 0⟩⟩, []⟩
    "corr-5" 404 "irrelevant" (fun _ => 9) (fun _ _ => DeliveryOutcome.status 200)
    (fun _ _ => false) (NewCircuitBreaker 0) 0 (by decide)

end Raven
